import Mathlib

/-!
Verification of the SuperCharts order-tracking subsystem.

Shallow embedding of:
  - `StopLossTracker.check_and_cleanup_order` / `_cleanup_processed_orders` /
    `save_orders` (stop_loss_tracker.py)
  - `BreakEvenMonitor.modify_stop_to_break_even` / `_is_terminal_error` /
    `check_break_even_trigger` / `monitor_break_even_orders` (one poll tick) /
    `clear_failed_orders_blacklist` (break_even_monitor_v2.py)
  - `BracketOrderTracker.check_and_cleanup_group` / `save_groups` /
    `add_bracket_order_group` (bracket_order_tracker.py)
  - `ContractManager.align_price_to_tick_size` (contract_manager.py)

Conventions of the embedding:
  - Prices and wall-clock instants are rationals (the Python code uses floats
    and ISO date strings; the claims are about the algorithms, not float
    rounding, and model timestamps are numeric so ISO parsing is exact).
  - The async broker API is an explicit environment: each call site reads its
    outcome (`Except` for calls that can raise) from the environment, and the
    embedded function returns the trace of broker calls it performed together
    with the new state.
  - Python truthiness of strings/ints is modelled as `≠ ""` / `≠ 0`; optional
    dataclass fields are `Option`; `getattr(o, f, d)` with a possibly-`None`
    field is `Option.getD`.
-/

/-- Substring test on character lists: does `pat` occur inside the list? -/
def listContainsSub (pat : List Char) : List Char → Bool
  | [] => pat.isEmpty
  | c :: rest => pat.isPrefixOf (c :: rest) || listContainsSub pat rest

/-- `pat in hay` for strings (Python `in` on `str`). -/
def strContains (hay pat : String) : Bool :=
  listContainsSub pat.toList hay.toList

/-- Python `s.lower()` (over the character list, so that it evaluates by
kernel reduction). -/
def strLower (s : String) : String :=
  String.mk (s.data.map Char.toLower)

/-- `StopLossOrder` dataclass (stop_loss_tracker.py).  Stream-tracking fields
are omitted: no claim refers to them. -/
structure StopLossOrder where
  order_id : ℤ
  account_id : ℤ
  account_name : String
  contract_id : String
  symbol : String
  order_type : String
  stop_price : Option ℚ
  trail_amount : Option ℚ
  position_id : Option ℤ
  position_size : ℤ
  original_position_size : ℤ
  status : String
  created_at : ℚ
  updated_at : Option ℚ := none
  notes : Option String := none
  entry_price : Option ℚ := none
  enable_break_even_stop : Option Bool := none
  break_even_activation_offset : Option ℚ := none
  break_even_activated : Option Bool := none
  original_stop_price : Option ℚ := none
deriving DecidableEq, Repr

/-- One entry of the broker `searchOpen` response; `.get('id')` /
`.get('orderId')` on the raw dict are `Option`-valued. -/
structure OpenOrderEntry where
  id : Option ℤ
  orderId : Option ℤ
deriving DecidableEq, Repr

/-- `OrderSearchResponse` as consumed by the trackers. -/
structure OrderSearchResponse where
  success : Bool
  orders : List OpenOrderEntry
deriving DecidableEq, Repr

/-- A broker position record (only `size` is read by the trackers). -/
structure PositionRec where
  size : ℤ
deriving DecidableEq, Repr

/-- Broker API calls issued by the trackers. -/
inductive BrokerCall
  | searchOpenOrders (accountId : ℤ)
  | cancelOrder (accountId orderId : ℤ)
deriving DecidableEq, Repr

def BrokerCall.isCancel : BrokerCall → Bool
  | .cancelOrder _ _ => true
  | _ => false

def BrokerCall.isSearch : BrokerCall → Bool
  | .searchOpenOrders _ => true
  | _ => false

/-- Environment for one `check_and_cleanup_order` call: the outcomes the
broker returns at each call site (`Except.error` = the Python call raised). -/
structure CleanupEnv where
  positions : Except String (List PositionRec)
  searchResult : Except String OrderSearchResponse
  cancelResult : Except String Unit
  now : ℚ

/-- Result of one `check_and_cleanup_order` call: the updated order record,
the broker calls performed, whether `save_orders` was called inside, and the
returned boolean. -/
structure CleanupResult where
  order : StopLossOrder
  calls : List BrokerCall
  saved : Bool
  cleaned : Bool
deriving DecidableEq, Repr

/-- The terminal-pattern test inlined at stop_loss_tracker.py:288 (and
repeated at bracket_order_tracker.py:250). -/
def slTerminalPattern (errorMessage : String) : Bool :=
  let low := strLower errorMessage
  strContains low "already cancelled" || strContains low "not found" ||
    strContains low "does not exist"

/-- The `except` handler at stop_loss_tracker.py:284-310: terminal pattern ⇒
mark CANCELLED and save; otherwise mark ORPHANED and save. -/
def cleanupErrorHandler (o : StopLossOrder) (now : ℚ) (e : String)
    (calls : List BrokerCall) : CleanupResult :=
  if slTerminalPattern e then
    { order := { o with
        status := "CANCELLED", updated_at := some now,
        notes := some ("Already cancelled or doesn\x27t exist: " ++ e) },
      calls := calls, saved := true, cleaned := true }
  else
    { order := { o with
        status := "ORPHANED", updated_at := some now,
        notes := some ("Failed to cancel: " ++ e) },
      calls := calls, saved := true, cleaned := false }

/-- `StopLossTracker.check_and_cleanup_order` (stop_loss_tracker.py:229-324). -/
def check_and_cleanup_order (o : StopLossOrder) (env : CleanupEnv) :
    CleanupResult :=
  if o.status ≠ "ACTIVE" then
    { order := o, calls := [], saved := false, cleaned := false }
  else
    match env.positions with
    | .error _ =>
      -- `get_positions_by_contract` raised: outer except logs and returns False
      { order := o, calls := [], saved := false, cleaned := false }
    | .ok positions =>
      if positions.length > 0 then
        -- position still exists: sync the tracked size, return False
        let cur := (positions.map (fun p => p.size)).sum
        if cur ≠ o.position_size then
          { order := { o with
              position_size := cur, updated_at := some env.now,
              notes := some ("Position size updated from " ++
                toString o.original_position_size ++ " to " ++ toString cur) },
            calls := [], saved := false, cleaned := false }
        else
          { order := o, calls := [], saved := false, cleaned := false }
      else
        -- position closed: check open orders, cancel if still open
        let searchCall := BrokerCall.searchOpenOrders o.account_id
        match env.searchResult with
        | .error e => cleanupErrorHandler o env.now e [searchCall]
        | .ok resp =>
          let stillOpen := resp.success &&
            resp.orders.any (fun ord =>
              ord.id = some o.order_id || ord.orderId = some o.order_id)
          if stillOpen then
            match env.cancelResult with
            | .ok _ =>
              { order := { o with
                  status := "CANCELLED",
                  updated_at := some env.now,
                  notes := some "Auto-cancelled: Position closed" },
                calls := [searchCall,
                  BrokerCall.cancelOrder o.account_id o.order_id],
                saved := false, cleaned := true }
            | .error e =>
              cleanupErrorHandler o env.now e
                [searchCall, BrokerCall.cancelOrder o.account_id o.order_id]
          else
            { order := { o with
                status := "CANCELLED",
                updated_at := some env.now,
                notes := some "Auto-detected: Order not in open orders, position was closed" },
              calls := [searchCall], saved := false, cleaned := true }

/-- Reference time used by the sweep: `updated_at or created_at`. -/
def orderRefTime (o : StopLossOrder) : ℚ :=
  o.updated_at.getD o.created_at

/-- Removal test of `_cleanup_processed_orders` (stop_loss_tracker.py:361-381);
model times are numeric, so the date-parse-failure branch is unreachable. -/
def sweepShouldRemove (now : ℚ) (o : StopLossOrder) : Bool :=
  if o.status = "ORPHANED" then true
  else if o.status = "CANCELLED" then decide (now - orderRefTime o > 60)
  else if o.status = "FILLED" then decide (now - orderRefTime o > 120)
  else if o.status ≠ "ACTIVE" then decide (now - orderRefTime o > 30)
  else false

/-- `StopLossTracker._cleanup_processed_orders` (stop_loss_tracker.py:356-407):
returns (surviving orders, removed orders, removed orders released from the
break-even monitor before deletion). -/
def cleanup_processed_orders (now : ℚ) (orders : List StopLossOrder) :
    List StopLossOrder × List StopLossOrder × List StopLossOrder :=
  let toRemove := orders.filter (fun o => sweepShouldRemove now o)
  let released := toRemove.filter (fun o =>
    o.enable_break_even_stop.getD false && o.symbol ≠ "")
  (orders.filter (fun o => !sweepShouldRemove now o), toRemove, released)

/-- Events emitted by the break-even monitor: broker modify calls, retry
sleeps, monitoring-dict removal, stream release/request, blacklist insertion,
and the tracker update performed on activation. -/
inductive BEEvent
  | modifyCall (accountId orderId : ℤ) (stopPrice : ℚ)
  | sleep (seconds : ℕ)
  | removeMonitoring (orderId : ℤ)
  | releaseStream (symbol : String) (orderId : ℤ)
  | blacklistAdd (orderId : ℤ)
  | requestStream (symbol : String) (orderId : ℤ)
  | activationUpdate (orderId : ℤ) (newStop : ℚ)
deriving DecidableEq, Repr

def BEEvent.isModify : BEEvent → Bool
  | .modifyCall _ _ _ => true
  | _ => false

/-- Outcome of one `modify_order` broker call: success, an unsuccessful
response (`errorMessage`, possibly `None`), or a raised exception. -/
inductive AttemptOutcome
  | ok
  | fail (errorMessage : Option String)
  | exn (msg : String)
deriving DecidableEq, Repr

/-- The terminal patterns of `BreakEvenMonitor._is_terminal_error`
(break_even_monitor_v2.py:331-346). -/
def terminalPatterns : List String :=
  ["order not found", "not found", "does not exist", "order does not exist",
   "invalid order", "order invalid", "already cancelled", "already canceled",
   "already filled", "order cancelled", "order canceled", "order filled",
   "order expired", "order closed"]

/-- `BreakEvenMonitor._is_terminal_error` (break_even_monitor_v2.py:315-352). -/
def is_terminal_error (errorMessage : String) : Bool :=
  if errorMessage = "" then false
  else
    let errorLower := strLower errorMessage
    terminalPatterns.any (fun p => strContains errorLower p)

/-- The remove-and-blacklist epilogue run on a terminal error and on retry
exhaustion (break_even_monitor_v2.py:267-271, 289-293, 307-311): guarded by
Python truthiness of `symbol`.  `remove_break_even_order` deletes the order
from the monitoring dict and releases its stream subscription. -/
def failEvents (o : StopLossOrder) : List BEEvent :=
  if o.symbol ≠ "" then
    [BEEvent.removeMonitoring o.order_id,
     BEEvent.releaseStream o.symbol o.order_id,
     BEEvent.blacklistAdd o.order_id]
  else []

/-- The retry loop of `modify_stop_to_break_even`
(break_even_monitor_v2.py:221-313).  The list holds the broker outcome of each
remaining attempt (`while attempt < max_attempts` runs once per element); the
empty list is the loop exit followed by the exhaustion epilogue.  `alignRes`
is the result of `align_price_to_tick_size` (the same environment answer at
every attempt). -/
def modifyLoop (o : StopLossOrder) (alignRes : Option ℚ) :
    List AttemptOutcome → Bool × List BEEvent
  | [] => (false, failEvents o)
  | oc :: rest =>
    if o.contract_id = "" then (false, [])
    else
      match alignRes with
      | none => (false, [])
      | some alignedStopPrice =>
        let call := BEEvent.modifyCall o.account_id o.order_id alignedStopPrice
        match oc with
        | .ok => (true, [call])
        | .fail em =>
          let lastError := em.getD "Unknown error"
          if is_terminal_error lastError then (false, call :: failEvents o)
          else if rest.isEmpty then (false, call :: failEvents o)
          else
            let r := modifyLoop o alignRes rest
            (r.1, call :: BEEvent.sleep 2 :: r.2)
        | .exn msg =>
          if is_terminal_error msg then (false, call :: failEvents o)
          else if rest.isEmpty then (false, call :: failEvents o)
          else
            let r := modifyLoop o alignRes rest
            (r.1, call :: BEEvent.sleep 2 :: r.2)

/-- `BreakEvenMonitor.modify_stop_to_break_even` (break_even_monitor_v2.py:
207-313) with its default `max_attempts = 5`: `outcomes` supplies the broker
answer of each of the (at most) 5 attempts. -/
def modify_stop_to_break_even (o : StopLossOrder) (alignRes : Option ℚ)
    (outcomes : List AttemptOutcome) : Bool × List BEEvent :=
  modifyLoop o alignRes outcomes

/-- `BreakEvenMonitor.clear_failed_orders_blacklist`
(break_even_monitor_v2.py:354-364) acting on the `failed_orders` set. -/
def clear_failed_orders_blacklist (failedOrders : Finset ℤ) :
    ℕ × Finset ℤ :=
  (failedOrders.card, ∅)

/-- Python `round()` on a rational: round half to even. -/
def roundHalfEven (q : ℚ) : ℤ :=
  let f := ⌊q⌋
  let frac := q - f
  if frac < 1/2 then f
  else if 1/2 < frac then f + 1
  else if f % 2 = 0 then f else f + 1

/-- Python `round(q, n)`: round half to even at `n` decimal places. -/
def roundToDecimals (n : ℕ) (q : ℚ) : ℚ :=
  ((roundHalfEven (q * 10 ^ n) : ℚ)) / 10 ^ n

/-- Contract fields read by `align_price_to_tick_size`; `decimalPlaces` is
behind a `hasattr` test with default 2, hence `Option`. -/
structure Contract where
  tickSize : ℚ
  decimalPlaces : Option ℕ
deriving DecidableEq, Repr

/-- `ContractManager.align_price_to_tick_size` (contract_manager.py:255-275);
`c` is the result of `get_contract_by_id` (`none` = contract lookup failed). -/
def align_price_to_tick_size (c : Option Contract) (price : ℚ) : Option ℚ :=
  match c with
  | none => none
  | some contract =>
    if contract.tickSize ≤ 0 then none
    else
      let alignedPrice := (roundHalfEven (price / contract.tickSize) : ℚ) *
        contract.tickSize
      let decimalPlaces := contract.decimalPlaces.getD 2
      some (roundToDecimals decimalPlaces alignedPrice)

/-- `BreakEvenMonitor.calculate_profit` (break_even_monitor_v2.py:120-125). -/
def calculate_profit (currentPrice entryPrice : ℚ) (isLong : Bool) : ℚ :=
  if isLong then currentPrice - entryPrice else entryPrice - currentPrice

/-- `BreakEvenMonitor.determine_position_direction`
(break_even_monitor_v2.py:127-134): long iff the protective stop sits below
entry. -/
def determine_position_direction (stopPrice entryPrice : ℚ) : Bool :=
  decide (stopPrice < entryPrice)

/-- Environment of one `check_break_even_trigger` call: the stream price, the
contract used for tick alignment, and the broker outcome of each retry
attempt of the (at most 5) modify calls. -/
structure TriggerEnv where
  price : Option ℚ
  contract : Option Contract
  outcomes : List AttemptOutcome

/-- The remove-from-monitoring epilogue of `check_break_even_trigger`
(break_even_monitor_v2.py:183-198), guarded by truthiness of `symbol`. -/
def triggerRemoveEvents (o : StopLossOrder) : List BEEvent :=
  if o.symbol ≠ "" then
    [BEEvent.removeMonitoring o.order_id,
     BEEvent.releaseStream o.symbol o.order_id]
  else []

/-- The new stop written back by `update_break_even_activation`
(break_even_monitor_v2.py:385-395): the tick-aligned entry when a contract id
is present and alignment succeeds, the raw entry otherwise. -/
def activationNewStop (o : StopLossOrder) (c : Option Contract)
    (entryPrice : ℚ) : ℚ :=
  if o.contract_id ≠ "" then
    (align_price_to_tick_size c entryPrice).getD entryPrice
  else entryPrice

/-- `BreakEvenMonitor.check_break_even_trigger`
(break_even_monitor_v2.py:136-205).  `none` price/stop/entry/offset make the
Python body raise or bail out, both of which return `False` with no broker
call. -/
def check_break_even_trigger (o : StopLossOrder) (env : TriggerEnv) :
    Bool × List BEEvent :=
  if ¬(o.enable_break_even_stop.getD false) then (false, [])
  else if o.break_even_activated.getD false then (false, [])
  else
    match env.price with
    | none => (false, [])
    | some currentPrice =>
      match o.stop_price, o.entry_price, o.break_even_activation_offset with
      | some stopPrice, some entryPrice, some offset =>
        let isLong := determine_position_direction stopPrice entryPrice
        let profit := calculate_profit currentPrice entryPrice isLong
        if profit ≥ offset then
          let alignRes := align_price_to_tick_size env.contract entryPrice
          let r := modify_stop_to_break_even o alignRes env.outcomes
          if r.1 then
            (true, r.2 ++
              [BEEvent.activationUpdate o.order_id
                (activationNewStop o env.contract entryPrice)] ++
              triggerRemoveEvents o)
          else
            (false, r.2 ++ triggerRemoveEvents o)
        else (false, [])
      | _, _, _ => (false, [])

/-- Monitoring dict `break_even_orders` is modelled as the association of
tracked order ids to their symbols (the only field the cleanup paths read). -/
def trackedHas (tracked : List (ℤ × String)) (i : ℤ) : Bool :=
  tracked.any (fun p => p.1 = i)

def insertTracked (i : ℤ) (s : String) (tracked : List (ℤ × String)) :
    List (ℤ × String) :=
  if trackedHas tracked i then tracked else tracked ++ [(i, s)]

def removeTracked (i : ℤ) (tracked : List (ℤ × String)) :
    List (ℤ × String) :=
  tracked.filter (fun p => p.1 ≠ i)

/-- `BreakEvenMonitor.add_break_even_order` (break_even_monitor_v2.py:29-54):
requires break-even enabled and truthy `order_id`, `symbol`, `contract_id`;
inserts into the monitoring dict, requests a stream, and rolls the insert back
when the stream request fails. -/
def add_break_even_order (tracked : List (ℤ × String)) (streamOk : Bool)
    (o : StopLossOrder) : List (ℤ × String) × List BEEvent × Bool :=
  if ¬(o.enable_break_even_stop.getD false) then (tracked, [], false)
  else if o.order_id = 0 ∨ o.symbol = "" ∨ o.contract_id = "" then
    (tracked, [], false)
  else
    let ev := [BEEvent.requestStream o.symbol o.order_id]
    if streamOk then (insertTracked o.order_id o.symbol tracked, ev, true)
    else (tracked, ev, false)

/-- Break-even monitor mutable state read by one poll tick. -/
structure MonitorState where
  tracked : List (ℤ × String)
  failedOrders : Finset ℤ

/-- Environment for one poll tick of `monitor_break_even_orders`. -/
structure TickEnv where
  addStreamOk : ℤ → Bool
  streamAlive : ℤ → Bool
  trigger : ℤ → TriggerEnv

/-- Effect of a tick's event list on the blacklist and the monitoring dict:
`failed_orders.add` and `del break_even_orders[...]` happen exactly at the
`blacklistAdd` / `removeMonitoring` events. -/
def applyEvents (st : Finset ℤ × List (ℤ × String)) :
    List BEEvent → Finset ℤ × List (ℤ × String)
  | [] => st
  | e :: rest =>
    match e with
    | .blacklistAdd i => applyEvents (insert i st.1, st.2) rest
    | .removeMonitoring i => applyEvents (st.1, removeTracked i st.2) rest
    | _ => applyEvents st rest

/-- Eligibility filter of the poll tick (break_even_monitor_v2.py:436-441). -/
def eligibleOrders (orders : List StopLossOrder) : List StopLossOrder :=
  orders.filter (fun o => o.status = "ACTIVE" &&
    o.enable_break_even_stop.getD false &&
    !(o.break_even_activated.getD false))

/-- First loop of the tick (break_even_monitor_v2.py:444-461): ensure each
eligible order is in the monitoring dict with a live stream. -/
def tickEnsureStep (env : TickEnv) (st : List (ℤ × String) × List BEEvent)
    (o : StopLossOrder) : List (ℤ × String) × List BEEvent :=
  if ¬ trackedHas st.1 o.order_id then
    let r := add_break_even_order st.1 (env.addStreamOk o.order_id) o
    (r.1, st.2 ++ r.2.1)
  else if ¬ env.streamAlive o.order_id then
    if o.contract_id ≠ "" then
      (st.1, st.2 ++ [BEEvent.requestStream o.symbol o.order_id])
    else (st.1, st.2)
  else (st.1, st.2)

/-- Second loop of the tick (break_even_monitor_v2.py:468-503): the blacklist
guard and the monitoring-dict guard are both `if order_id and ...`, so they
skip only when `order_id` is truthy (≠ 0) as well; the already-activated
double check cleans up only when the id is still in the monitoring dict; then
the trigger check. -/
def tickCheckStep (env : TickEnv)
    (st : List (ℤ × String) × Finset ℤ × List BEEvent) (o : StopLossOrder) :
    List (ℤ × String) × Finset ℤ × List BEEvent :=
  if o.order_id ≠ 0 ∧ o.order_id ∈ st.2.1 then st
  else if o.order_id ≠ 0 ∧ ¬ trackedHas st.1 o.order_id then st
  else if o.break_even_activated.getD false then
    if trackedHas st.1 o.order_id then
      (removeTracked o.order_id st.1, st.2.1,
       st.2.2 ++ [BEEvent.removeMonitoring o.order_id,
                  BEEvent.releaseStream o.symbol o.order_id])
    else st
  else
    let r := check_break_even_trigger o (env.trigger o.order_id)
    let st' := applyEvents (st.2.1, st.1) r.2
    (st'.2, st'.1, st.2.2 ++ r.2)

/-- One iteration of `BreakEvenMonitor.monitor_break_even_orders`
(break_even_monitor_v2.py:431-517). -/
def monitor_tick (orders : List StopLossOrder) (st : MonitorState)
    (env : TickEnv) : MonitorState × List BEEvent :=
  let eligible := eligibleOrders orders
  let ensured := eligible.foldl (tickEnsureStep env) (st.tracked, [])
  if eligible.isEmpty then
    let evs := ensured.1.flatMap (fun p =>
      [BEEvent.removeMonitoring p.1, BEEvent.releaseStream p.2 p.1])
    ({ tracked := [], failedOrders := st.failedOrders }, ensured.2 ++ evs)
  else
    let checked := eligible.foldl (tickCheckStep env)
      (ensured.1, st.failedOrders, [])
    ({ tracked := checked.1, failedOrders := checked.2.1 },
     ensured.2 ++ checked.2.2)

/-- `status` entry of a bracket leg dict. -/
structure LegInfo where
  id : ℤ
  type : String
deriving DecidableEq, Repr

/-- `BracketOrderGroup` dataclass (bracket_order_tracker.py); break-even and
stream fields omitted (no claim reads them). -/
structure BracketOrderGroup where
  group_id : String
  account_id : ℤ
  account_name : String
  contract_id : String
  symbol : String
  orders : List LegInfo
  position_id : Option ℤ
  position_size : ℤ
  status : String
deriving DecidableEq, Repr

/-- Broker answers for one leg of `check_and_cleanup_group`. -/
structure LegEnv where
  search : Except String OrderSearchResponse
  cancel : Except String Unit

/-- The per-leg body of `check_and_cleanup_group`
(bracket_order_tracker.py:203-273): search the open orders and cancel when the
leg is still open; every exception (search or cancel) is caught inside the
loop, so the cancel outcome affects only logging and the calls already made. -/
def legCalls (accountId : ℤ) (leg : LegInfo) (le : LegEnv) : List BrokerCall :=
  match le.search with
  | .error _ => [BrokerCall.searchOpenOrders accountId]
  | .ok r =>
    if r.success && r.orders.any (fun ord =>
        ord.id = some leg.id || ord.orderId = some leg.id) then
      [BrokerCall.searchOpenOrders accountId,
       BrokerCall.cancelOrder accountId leg.id]
    else [BrokerCall.searchOpenOrders accountId]

/-- Whether leg `legId` shows as still open in its search answer. -/
def legStillOpen (le : LegEnv) (legId : ℤ) : Bool :=
  match le.search with
  | .error _ => false
  | .ok r =>
    r.success && r.orders.any (fun ord =>
      ord.id = some legId || ord.orderId = some legId)

/-- Environment of one `check_and_cleanup_group` call. -/
structure GroupEnv where
  positions : Except String (List PositionRec)
  legEnv : ℕ → LegEnv

/-- `BracketOrderTracker.check_and_cleanup_group`
(bracket_order_tracker.py:185-285): returns (new registry, broker calls,
`save_groups` called, returned boolean). -/
def check_and_cleanup_group (g : BracketOrderGroup)
    (groups : List BracketOrderGroup) (env : GroupEnv) :
    List BracketOrderGroup × List BrokerCall × Bool × Bool :=
  if g.status ≠ "OPEN" then (groups, [], false, false)
  else
    match env.positions with
    | .error _ => (groups, [], false, false)
    | .ok positions =>
      if positions.length > 0 then (groups, [], false, false)
      else
        let calls := g.orders.enum.flatMap (fun pr =>
          legCalls g.account_id pr.2 (env.legEnv pr.1))
        (groups.filter (fun x => x.group_id ≠ g.group_id), calls, true, true)

/-- File-system operations of the registry save methods.  The serialized JSON
document is abstracted away: the claims concern only the write-then-rename
discipline, not the serialization. -/
inductive FsOp
  | writeFile (path : String)
  | rename (src dst : String)
deriving DecidableEq, Repr

/-- `StopLossTracker.save_orders` (stop_loss_tracker.py:123-143): write to
`f"{json_file_path}.tmp"`, then `os.rename` it over the store path. -/
def save_orders_fs (jsonFilePath : String) : List FsOp :=
  [FsOp.writeFile (jsonFilePath ++ ".tmp"),
   FsOp.rename (jsonFilePath ++ ".tmp") jsonFilePath]

/-- `BracketOrderTracker.save_groups` (bracket_order_tracker.py:86-101):
open the store path itself for writing and dump into it. -/
def save_groups_fs (jsonFilePath : String) : List FsOp :=
  [FsOp.writeFile jsonFilePath]

/-- Atomic write-temp-then-rename discipline over `storePath`: the store path
itself is never opened for writing, and the trace is exactly a write of the
temp file followed by the rename over the store path. -/
def atomicTempRename (storePath : String) (ops : List FsOp) : Prop :=
  (∀ p, FsOp.writeFile p ∈ ops → p ≠ storePath) ∧
  ops = [FsOp.writeFile (storePath ++ ".tmp"),
         FsOp.rename (storePath ++ ".tmp") storePath]

/-- A `datetime.now()` instant, to sub-second resolution. -/
structure Timestamp where
  year : ℕ
  month : ℕ
  day : ℕ
  hour : ℕ
  minute : ℕ
  second : ℕ
  microsecond : ℕ
deriving DecidableEq, Repr

/-- Two-digit zero padding of `strftime`. -/
def pad2 (n : ℕ) : String :=
  if n < 10 then "0" ++ toString n else toString n

/-- `datetime.now().strftime("%Y%m%dT%H%M%S")` for four-digit years: the
microsecond field does not appear in the output. -/
def formatCompactTimestamp (t : Timestamp) : String :=
  toString t.year ++ pad2 t.month ++ pad2 t.day ++ "T" ++
    pad2 t.hour ++ pad2 t.minute ++ pad2 t.second

/-- Group-id generation of `BracketOrderTracker.add_bracket_order_group`
(bracket_order_tracker.py:120-122). -/
def generate_group_id (accountId : ℤ) (symbol : String) (now : Timestamp) :
    String :=
  "BRACKET-" ++ toString accountId ++ "-" ++ symbol ++ "-" ++
    formatCompactTimestamp now

/-- Python dict assignment `self.groups[group_id] = group` on a keyed store:
overwrite when the key exists, append otherwise. -/
def storeSet (m : List (String × ℕ)) (k : String) (v : ℕ) :
    List (String × ℕ) :=
  if m.any (fun kv => kv.1 = k) then
    m.map (fun kv => if kv.1 = k then (k, v) else kv)
  else m ++ [(k, v)]

/-- Classifier: this broker outcome is a failure matching a terminal pattern
(the condition that makes `modify_stop_to_break_even` abort its retries). -/
def outcomeTerminal : AttemptOutcome → Bool
  | .ok => false
  | .fail em => is_terminal_error (em.getD "Unknown error")
  | .exn m => is_terminal_error m

/-- Classifier: a non-terminal failure (the only outcome that lets the retry
loop continue). -/
def outcomeNonTerminalFail : AttemptOutcome → Bool
  | .ok => false
  | .fail em => !is_terminal_error (em.getD "Unknown error")
  | .exn m => !is_terminal_error m

/-- Sample tracked protective order used by the witnesses. -/
def wOrder : StopLossOrder :=
  { order_id := 101, account_id := 7, account_name := "ACC",
    contract_id := "CON.F.US.ENQ.U25", symbol := "NQ",
    order_type := "STOP_LOSS", stop_price := some 19980, trail_amount := none,
    position_id := none, position_size := 1, original_position_size := 1,
    status := "ACTIVE", created_at := 0, entry_price := some 20000,
    enable_break_even_stop := some true,
    break_even_activation_offset := some 10 }

/-- Sample order whose cancel already failed (status ORPHANED). -/
def wOrphan : StopLossOrder :=
  { wOrder with order_id := 102, status := "ORPHANED", updated_at := some 50 }

/-- Environment: position closed, order still open, cancel succeeds. -/
def wEnvCancelOk : CleanupEnv :=
  { positions := Except.ok [],
    searchResult := Except.ok
      { success := true, orders := [{ id := some 101, orderId := none }] },
    cancelResult := Except.ok (), now := 5 }

/-- Environment: cancel raises with a terminal pattern. -/
def wEnvCancelTerminal : CleanupEnv :=
  { wEnvCancelOk with cancelResult := Except.error "Order not found" }

/-- Environment: cancel raises with a transient error. -/
def wEnvCancelFail : CleanupEnv :=
  { wEnvCancelOk with
    cancelResult := Except.error "HTTP 503 Service Unavailable" }

/-- Environment: the open-orders search returns success=False. -/
def wEnvSearchUnsuccessful : CleanupEnv :=
  { wEnvCancelOk with
    searchResult := Except.ok { success := false, orders := [] } }

/-- Five consecutive transient modify failures. -/
def wOuts : List AttemptOutcome :=
  [AttemptOutcome.fail (some "503 Service Unavailable"),
   AttemptOutcome.fail (some "503 Service Unavailable"),
   AttemptOutcome.fail none, AttemptOutcome.exn "timeout",
   AttemptOutcome.fail (some "503 Service Unavailable")]

/-- Sample futures contract: quarter-point ticks, two decimal places. -/
def wContract : Contract := { tickSize := 1/4, decimalPlaces := some 2 }

/-- Trigger environment: price 15 points above entry, modify succeeds. -/
def wTrigEnv : TriggerEnv :=
  { price := some 20015, contract := some wContract,
    outcomes := [AttemptOutcome.ok] }

/-- Sample bracket group with a stop-loss and a take-profit leg. -/
def wGroup : BracketOrderGroup :=
  { group_id := "BRACKET-7-NQ-20260115T093000", account_id := 7,
    account_name := "ACC", contract_id := "CON.F.US.ENQ.U25", symbol := "NQ",
    orders := [{ id := 201, type := "STOP_LOSS" },
               { id := 202, type := "TAKE_PROFIT" }],
    position_id := none, position_size := 1, status := "OPEN" }

/-- Bracket environment: both legs still open, the first cancel raises and
the second succeeds. -/
def wGroupEnv : GroupEnv :=
  { positions := Except.ok [],
    legEnv := fun i =>
      if i = 0 then
        { search := Except.ok
            { success := true, orders := [{ id := some 201, orderId := none }] },
          cancel := Except.error "boom" }
      else
        { search := Except.ok
            { success := true, orders := [{ id := some 202, orderId := none }] },
          cancel := Except.ok () } }

/-- Monitor state with order 101 blacklisted and still tracked. -/
def wTickSt : MonitorState :=
  { tracked := [(101, "NQ")], failedOrders := {101} }

/-- Tick environment for the blacklist witness. -/
def wTickEnv : TickEnv :=
  { addStreamOk := fun _ => true, streamAlive := fun _ => true,
    trigger := fun _ => wTrigEnv }

theorem tmp_path_ne (path : String) : path ++ ".tmp" ≠ path := by
  intro h
  have hlen := congrArg String.length h
  rw [String.length_append] at hlen
  have h4 : (".tmp" : String).length = 4 := rfl
  rw [h4] at hlen
  omega

/-- C8 (amended): the stop-loss registry save follows the atomic
write-temp-then-rename discipline, while the bracket registry save writes the
serialized document directly to the store path, with no temp file and no
rename. -/
theorem c8_stop_loss_save_atomic_bracket_save_direct (path : String) :
    atomicTempRename path (save_orders_fs path) ∧
    save_groups_fs path = [FsOp.writeFile path] := by
  refine ⟨⟨?_, rfl⟩, rfl⟩
  intro p hp
  simp only [save_orders_fs, List.mem_cons, List.mem_singleton,
    List.not_mem_nil, or_false] at hp
  rcases hp with hp | hp
  · cases hp
    exact tmp_path_ne path
  · cases hp

/-- C8 counterexample: the bracket registry save, at its configured store path
`bracket_orders.json`, does not follow the write-temp-then-rename discipline
(it opens the store path itself for writing). -/
theorem c8_counterexample :
    ¬ atomicTempRename "bracket_orders.json"
        (save_groups_fs "bracket_orders.json") := by
  intro h
  exact h.1 "bracket_orders.json" (by simp [save_groups_fs]) rfl

/-- C8 witness: the discipline facts at the concrete store paths hard-coded in
the two trackers. -/
theorem c8_witness :
    atomicTempRename "stop_loss_orders.json"
        (save_orders_fs "stop_loss_orders.json") ∧
    save_groups_fs "bracket_orders.json" =
      [FsOp.writeFile "bracket_orders.json"] :=
  ⟨(c8_stop_loss_save_atomic_bracket_save_direct "stop_loss_orders.json").1,
   (c8_stop_loss_save_atomic_bracket_save_direct "bracket_orders.json").2⟩

/-- C9: group-id generation is NOT injective within a second — two distinct
instants in the same wall-clock second for the same account and symbol
produce the identical group id, and the second registry insert overwrites the
first (the keyed store still has a single entry). -/
theorem c9_same_second_id_collision :
    (⟨2026, 1, 15, 9, 30, 0, 100000⟩ : Timestamp) ≠
      (⟨2026, 1, 15, 9, 30, 0, 900000⟩ : Timestamp) ∧
    generate_group_id 1 "NQ" ⟨2026, 1, 15, 9, 30, 0, 100000⟩ =
      generate_group_id 1 "NQ" ⟨2026, 1, 15, 9, 30, 0, 900000⟩ ∧
    generate_group_id 1 "NQ" ⟨2026, 1, 15, 9, 30, 0, 100000⟩ =
      "BRACKET-1-NQ-20260115T093000" ∧
    (storeSet (storeSet []
        (generate_group_id 1 "NQ" ⟨2026, 1, 15, 9, 30, 0, 100000⟩) 1)
        (generate_group_id 1 "NQ" ⟨2026, 1, 15, 9, 30, 0, 900000⟩) 2).length
      = 1 := by
  decide

/-- C10: when the position is closed and the open-orders search returns an
unsuccessful response (success flag false), the order is treated as not open:
it is marked CANCELLED with the auto-detected note and timestamp, the search
is the only broker call made (no cancel is issued), and the call reports the
order as cleaned. -/
theorem c10_search_failure_marks_cancelled
    (o : StopLossOrder) (env : CleanupEnv) (resp : OrderSearchResponse)
    (hact : o.status = "ACTIVE")
    (hpos : env.positions = Except.ok [])
    (hsr : env.searchResult = Except.ok resp)
    (hfail : resp.success = false) :
    (check_and_cleanup_order o env).order.status = "CANCELLED" ∧
    (check_and_cleanup_order o env).order.updated_at = some env.now ∧
    (check_and_cleanup_order o env).order.notes =
      some "Auto-detected: Order not in open orders, position was closed" ∧
    (check_and_cleanup_order o env).calls =
      [BrokerCall.searchOpenOrders o.account_id] ∧
    (check_and_cleanup_order o env).cleaned = true := by
  simp [check_and_cleanup_order, hact, hpos, hsr, hfail]

/-- C10 witness at a concrete order and environment. -/
theorem c10_witness :
    (check_and_cleanup_order wOrder wEnvSearchUnsuccessful).order.status =
      "CANCELLED" ∧
    (check_and_cleanup_order wOrder wEnvSearchUnsuccessful).order.updated_at =
      some wEnvSearchUnsuccessful.now ∧
    (check_and_cleanup_order wOrder wEnvSearchUnsuccessful).order.notes =
      some "Auto-detected: Order not in open orders, position was closed" ∧
    (check_and_cleanup_order wOrder wEnvSearchUnsuccessful).calls =
      [BrokerCall.searchOpenOrders wOrder.account_id] ∧
    (check_and_cleanup_order wOrder wEnvSearchUnsuccessful).cleaned = true :=
  c10_search_failure_marks_cancelled wOrder wEnvSearchUnsuccessful
    { success := false, orders := [] } rfl rfl rfl rfl

/-- C4: a cancel that raises with a terminal pattern (already cancelled / not
found / does not exist) is success-equivalent: the order is marked CANCELLED
with timestamp and note, the registry is persisted (`save_orders` runs inside
the handler), exactly one cancel call reached the broker (no retry), and the
call reports the order as cleaned. -/
theorem c4_terminal_cancel_error_success_equivalent
    (o : StopLossOrder) (env : CleanupEnv) (resp : OrderSearchResponse)
    (e : String)
    (hact : o.status = "ACTIVE")
    (hpos : env.positions = Except.ok [])
    (hsr : env.searchResult = Except.ok resp)
    (hsuc : resp.success = true)
    (hopen : resp.orders.any (fun ord =>
      ord.id = some o.order_id || ord.orderId = some o.order_id) = true)
    (hcan : env.cancelResult = Except.error e)
    (hterm : slTerminalPattern e = true) :
    (check_and_cleanup_order o env).order.status = "CANCELLED" ∧
    (check_and_cleanup_order o env).order.updated_at = some env.now ∧
    (check_and_cleanup_order o env).order.notes =
      some ("Already cancelled or doesn\x27t exist: " ++ e) ∧
    (check_and_cleanup_order o env).saved = true ∧
    (check_and_cleanup_order o env).calls.countP BrokerCall.isCancel = 1 ∧
    (check_and_cleanup_order o env).cleaned = true := by
  simp [check_and_cleanup_order, cleanupErrorHandler, hact, hpos, hsr, hsuc,
    hopen, hcan, hterm, List.countP_cons, BrokerCall.isCancel]

/-- C4 witness: the broker answers "Order not found". -/
theorem c4_witness :
    slTerminalPattern "Order not found" = true ∧
    (check_and_cleanup_order wOrder wEnvCancelTerminal).order.status =
      "CANCELLED" ∧
    (check_and_cleanup_order wOrder wEnvCancelTerminal).order.notes =
      some ("Already cancelled or doesn\x27t exist: " ++ "Order not found") ∧
    (check_and_cleanup_order wOrder wEnvCancelTerminal).saved = true ∧
    (check_and_cleanup_order wOrder wEnvCancelTerminal).calls.countP
      BrokerCall.isCancel = 1 := by
  have h := c4_terminal_cancel_error_success_equivalent wOrder
    wEnvCancelTerminal
    { success := true, orders := [{ id := some 101, orderId := none }] }
    "Order not found" rfl rfl rfl rfl (by decide) rfl (by decide)
  exact ⟨by decide, h.1, h.2.2.1, h.2.2.2.1, h.2.2.2.2.1⟩

/-- C1: with the position closed and the search reporting the order still
open, the first reconciliation call sends exactly one cancel to the broker
and leaves the order in a non-ACTIVE status; the second call returns
immediately with no broker call and no state change, so across the two calls
exactly one cancel attempt reaches the broker. -/
theorem c1_reconciliation_cancel_idempotent
    (o : StopLossOrder) (env1 env2 : CleanupEnv) (resp : OrderSearchResponse)
    (hact : o.status = "ACTIVE")
    (hpos : env1.positions = Except.ok [])
    (hsr : env1.searchResult = Except.ok resp)
    (hsuc : resp.success = true)
    (hopen : resp.orders.any (fun ord =>
      ord.id = some o.order_id || ord.orderId = some o.order_id) = true) :
    (check_and_cleanup_order o env1).calls.countP BrokerCall.isCancel = 1 ∧
    (check_and_cleanup_order o env1).order.status ≠ "ACTIVE" ∧
    check_and_cleanup_order (check_and_cleanup_order o env1).order env2 =
      { order := (check_and_cleanup_order o env1).order, calls := [],
        saved := false, cleaned := false } := by
  cases hcr : env1.cancelResult with
  | ok v =>
    simp [check_and_cleanup_order, hact, hpos, hsr, hsuc, hopen, hcr,
      List.countP_cons, BrokerCall.isCancel]
  | error e =>
    cases ht : slTerminalPattern e with
    | true =>
      simp [check_and_cleanup_order, cleanupErrorHandler, hact, hpos, hsr,
        hsuc, hopen, hcr, ht, List.countP_cons, BrokerCall.isCancel]
    | false =>
      simp [check_and_cleanup_order, cleanupErrorHandler, hact, hpos, hsr,
        hsuc, hopen, hcr, ht, List.countP_cons, BrokerCall.isCancel]

/-- C1 witness: a successful cancel on the first call, arbitrary second
environment. -/
theorem c1_witness :
    (check_and_cleanup_order wOrder wEnvCancelOk).calls.countP
      BrokerCall.isCancel = 1 ∧
    (check_and_cleanup_order wOrder wEnvCancelOk).order.status ≠ "ACTIVE" ∧
    check_and_cleanup_order (check_and_cleanup_order wOrder wEnvCancelOk).order
        wEnvCancelOk =
      { order := (check_and_cleanup_order wOrder wEnvCancelOk).order,
        calls := [], saved := false, cleaned := false } :=
  c1_reconciliation_cancel_idempotent wOrder wEnvCancelOk wEnvCancelOk
    { success := true, orders := [{ id := some 101, orderId := none }] }
    rfl rfl rfl rfl (by decide)

/-- C5: a non-terminal cancel failure marks the order ORPHANED; non-ACTIVE
orders are never retried (no broker call, no change); the sweep removes
ORPHANED immediately, CANCELLED after 60s, FILLED after 120s, other
non-ACTIVE after 30s, never removes ACTIVE, and releases break-even-enabled
removed orders from the monitor. -/
theorem c5_orphaned_terminal_and_swept
    (o : StopLossOrder) (env : CleanupEnv) (resp : OrderSearchResponse)
    (e : String) (now : ℚ) (orders : List StopLossOrder) :
    (o.status = "ACTIVE" → env.positions = Except.ok [] →
      env.searchResult = Except.ok resp → resp.success = true →
      resp.orders.any (fun ord =>
        ord.id = some o.order_id || ord.orderId = some o.order_id) = true →
      env.cancelResult = Except.error e → slTerminalPattern e = false →
      (check_and_cleanup_order o env).order.status = "ORPHANED" ∧
      (check_and_cleanup_order o env).cleaned = false ∧
      (check_and_cleanup_order o env).saved = true) ∧
    (o.status ≠ "ACTIVE" →
      check_and_cleanup_order o env =
        { order := o, calls := [], saved := false, cleaned := false }) ∧
    (o ∈ orders →
      (o.status = "ORPHANED" →
        o ∈ (cleanup_processed_orders now orders).2.1) ∧
      (o.status = "CANCELLED" →
        (o ∈ (cleanup_processed_orders now orders).2.1 ↔
          now - orderRefTime o > 60)) ∧
      (o.status = "FILLED" →
        (o ∈ (cleanup_processed_orders now orders).2.1 ↔
          now - orderRefTime o > 120)) ∧
      (o.status ≠ "ACTIVE" → o.status ≠ "ORPHANED" → o.status ≠ "CANCELLED" →
        o.status ≠ "FILLED" →
        (o ∈ (cleanup_processed_orders now orders).2.1 ↔
          now - orderRefTime o > 30)) ∧
      (o.status = "ACTIVE" →
        o ∈ (cleanup_processed_orders now orders).1 ∧
        o ∉ (cleanup_processed_orders now orders).2.1) ∧
      (o ∈ (cleanup_processed_orders now orders).2.1 →
        o.enable_break_even_stop.getD false = true → o.symbol ≠ "" →
        o ∈ (cleanup_processed_orders now orders).2.2)) := by
  refine ⟨?_, ?_, ?_⟩
  · intro hact hpos hsr hsuc hopen hcan hterm
    simp [check_and_cleanup_order, cleanupErrorHandler, hact, hpos, hsr,
      hsuc, hopen, hcan, hterm]
  · intro hne
    rw [check_and_cleanup_order, if_pos hne]
  · intro ho
    refine ⟨?_, ?_, ?_, ?_, ?_, ?_⟩
    · intro hst
      simp [cleanup_processed_orders, List.mem_filter, ho,
        sweepShouldRemove, hst]
    · intro hst
      simp [cleanup_processed_orders, List.mem_filter, ho,
        sweepShouldRemove, hst]
    · intro hst
      simp [cleanup_processed_orders, List.mem_filter, ho,
        sweepShouldRemove, hst]
    · intro h1 h2 h3 h4
      simp [cleanup_processed_orders, List.mem_filter, ho,
        sweepShouldRemove, h1, h2, h3, h4]
    · intro hst
      simp [cleanup_processed_orders, List.mem_filter, ho,
        sweepShouldRemove, hst]
    · intro hrem hbe hsym
      simp only [cleanup_processed_orders] at hrem ⊢
      exact List.mem_filter.2 ⟨hrem, by simp [hbe, hsym]⟩

/-- C5 witness: an ORPHANED order is swept immediately, an ACTIVE break-even
order survives, and a transient cancel failure produces ORPHANED. -/
theorem c5_witness :
    wOrphan ∈ (cleanup_processed_orders 51 [wOrphan, wOrder]).2.1 ∧
    wOrphan ∈ (cleanup_processed_orders 51 [wOrphan, wOrder]).2.2 ∧
    wOrder ∈ (cleanup_processed_orders 51 [wOrphan, wOrder]).1 ∧
    (check_and_cleanup_order wOrder wEnvCancelFail).order.status =
      "ORPHANED" := by
  have h1 := (c5_orphaned_terminal_and_swept wOrphan wEnvCancelFail
    { success := true, orders := [] } "x" 51 [wOrphan, wOrder]).2.2
    (by decide)
  have h2 := (c5_orphaned_terminal_and_swept wOrder wEnvCancelFail
    { success := true, orders := [{ id := some 101, orderId := none }] }
    "HTTP 503 Service Unavailable" 51 [wOrphan, wOrder])
  have hrem := h1.1 rfl
  refine ⟨hrem, ?_, ?_, ?_⟩
  · exact h1.2.2.2.2.2 hrem (by decide) (by decide)
  · exact ((h2.2.2 (by decide)).2.2.2.2.1 rfl).1
  · exact (h2.1 rfl rfl rfl rfl (by decide) rfl (by decide)).1

theorem legCalls_countSearch (a : ℤ) (leg : LegInfo) (le : LegEnv) :
    (legCalls a leg le).countP BrokerCall.isSearch = 1 := by
  rcases le with ⟨search, cancel⟩
  cases search with
  | error e => simp [legCalls, List.countP_cons, BrokerCall.isSearch]
  | ok r =>
    cases hb : r.success && r.orders.any (fun ord =>
        ord.id = some leg.id || ord.orderId = some leg.id) with
    | true =>
      simp only [legCalls, hb]
      simp [List.countP_cons, BrokerCall.isSearch]
    | false =>
      simp only [legCalls, hb]
      simp [List.countP_cons, BrokerCall.isSearch]

theorem countSearch_flatMap (a : ℤ) (f : ℕ × LegInfo → LegEnv) :
    ∀ l : List (ℕ × LegInfo),
      (l.flatMap (fun pr => legCalls a pr.2 (f pr))).countP
        BrokerCall.isSearch = l.length := by
  intro l
  induction l with
  | nil => simp
  | cons x xs ih =>
    simp [List.countP_append, ih, legCalls_countSearch, Nat.add_comm]

/-- C6: with the position search returning no positions, every leg of an OPEN
bracket group is processed (one open-orders search per leg), a leg that shows
as still open gets its cancel call regardless of any other leg's outcome, and
afterwards the group is deleted from the registry and the registry persisted,
whatever the individual leg outcomes were. -/
theorem c6_per_leg_failures_do_not_block_group_deletion
    (g : BracketOrderGroup) (groups : List BracketOrderGroup) (env : GroupEnv)
    (hopen : g.status = "OPEN") (hpos : env.positions = Except.ok []) :
    (check_and_cleanup_group g groups env).1 =
      groups.filter (fun x => x.group_id ≠ g.group_id) ∧
    (check_and_cleanup_group g groups env).2.2.1 = true ∧
    (check_and_cleanup_group g groups env).2.2.2 = true ∧
    (check_and_cleanup_group g groups env).2.1.countP BrokerCall.isSearch =
      g.orders.length ∧
    (∀ i, (hi : i < g.orders.length) →
      legStillOpen (env.legEnv i) (g.orders.get ⟨i, hi⟩).id = true →
      BrokerCall.cancelOrder g.account_id (g.orders.get ⟨i, hi⟩).id ∈
        (check_and_cleanup_group g groups env).2.1) := by
  have hred : check_and_cleanup_group g groups env =
      (groups.filter (fun x => x.group_id ≠ g.group_id),
       g.orders.enum.flatMap (fun pr =>
         legCalls g.account_id pr.2 (env.legEnv pr.1)), true, true) := by
    simp [check_and_cleanup_group, hopen, hpos]
  refine ⟨by rw [hred], by rw [hred], by rw [hred], ?_, ?_⟩
  · rw [hred]
    simpa [List.enum_length] using
      countSearch_flatMap g.account_id (fun pr => env.legEnv pr.1)
        g.orders.enum
  · intro i hi hstill
    rw [hred]
    apply List.mem_flatMap.2
    have hlen : i < g.orders.enum.length := by
      simpa [List.enum_length] using hi
    refine ⟨(i, g.orders.get ⟨i, hi⟩), ?_, ?_⟩
    · have h2 := List.getElem_enum g.orders i hlen
      have h3 : g.orders.enum[i] ∈ g.orders.enum := List.getElem_mem hlen
      rw [h2] at h3
      simpa [List.get_eq_getElem] using h3
    · unfold legCalls
      unfold legStillOpen at hstill
      cases hs : (env.legEnv i).search with
      | error e =>
        rw [hs] at hstill
        simp at hstill
      | ok r =>
        rw [hs] at hstill
        simp only [List.get_eq_getElem] at hstill
        simp only [Bool.and_eq_true, List.any_eq_true, Bool.or_eq_true,
          decide_eq_true_eq] at hstill
        simp [hstill.1, hstill.2]

/-- C6 witness: two legs, the first cancel raises, the second leg is still
attempted and cancelled, and the group is removed. -/
theorem c6_witness :
    (check_and_cleanup_group wGroup [wGroup] wGroupEnv).1 = [] ∧
    (check_and_cleanup_group wGroup [wGroup] wGroupEnv).2.2.1 = true ∧
    (check_and_cleanup_group wGroup [wGroup] wGroupEnv).2.1.countP
      BrokerCall.isSearch = 2 ∧
    BrokerCall.cancelOrder 7 202 ∈
      (check_and_cleanup_group wGroup [wGroup] wGroupEnv).2.1 := by
  have h := c6_per_leg_failures_do_not_block_group_deletion wGroup [wGroup]
    wGroupEnv rfl rfl
  refine ⟨?_, h.2.1, ?_, ?_⟩
  · rw [h.1]
    decide
  · rw [h.2.2.2.1]
    decide
  · have := h.2.2.2.2 1 (by decide) (by decide)
    simpa using this

theorem failEvents_countModify (o : StopLossOrder) :
    (failEvents o).countP BEEvent.isModify = 0 := by
  unfold failEvents
  split <;> simp [List.countP_cons, BEEvent.isModify]

theorem failEvents_no_sleep (o : StopLossOrder) (s : ℕ) :
    BEEvent.sleep s ∉ failEvents o := by
  unfold failEvents
  split <;> simp

theorem failEvents_no_modify (o : StopLossOrder) (a i : ℤ) (q : ℚ) :
    BEEvent.modifyCall a i q ∉ failEvents o := by
  unfold failEvents
  split <;> simp

theorem failEvents_mem (o : StopLossOrder) (hsym : o.symbol ≠ "") :
    BEEvent.blacklistAdd o.order_id ∈ failEvents o ∧
    BEEvent.removeMonitoring o.order_id ∈ failEvents o ∧
    BEEvent.releaseStream o.symbol o.order_id ∈ failEvents o := by
  simp [failEvents, hsym]

theorem modifyLoop_countModify_le (o : StopLossOrder) (al : Option ℚ) :
    ∀ outs : List AttemptOutcome,
      (modifyLoop o al outs).2.countP BEEvent.isModify ≤ outs.length := by
  intro outs
  induction outs with
  | nil => simp [modifyLoop, failEvents_countModify]
  | cons oc rest ih =>
    by_cases hc : o.contract_id = ""
    · simp [modifyLoop, hc]
    · cases al with
      | none => simp [modifyLoop, hc]
      | some p =>
        cases oc with
        | ok => simp [modifyLoop, hc, List.countP_cons, BEEvent.isModify]
        | fail em =>
          by_cases ht : is_terminal_error (em.getD "Unknown error") = true
          · simp [modifyLoop, hc, ht, List.countP_cons, BEEvent.isModify,
              failEvents_countModify]
          · cases hrest : rest.isEmpty with
            | true =>
              simp [modifyLoop, hc, ht, hrest, List.countP_cons,
                BEEvent.isModify, failEvents_countModify]
            | false =>
              simp [modifyLoop, hc, ht, hrest, List.countP_cons,
                BEEvent.isModify]
              omega
        | exn msg =>
          by_cases ht : is_terminal_error msg = true
          · simp [modifyLoop, hc, ht, List.countP_cons, BEEvent.isModify,
              failEvents_countModify]
          · cases hrest : rest.isEmpty with
            | true =>
              simp [modifyLoop, hc, ht, hrest, List.countP_cons,
                BEEvent.isModify, failEvents_countModify]
            | false =>
              simp [modifyLoop, hc, ht, hrest, List.countP_cons,
                BEEvent.isModify]
              omega

theorem modifyLoop_events_shape (o : StopLossOrder) (al : Option ℚ) :
    ∀ outs, ∀ e ∈ (modifyLoop o al outs).2,
      (∃ q, e = BEEvent.modifyCall o.account_id o.order_id q ∧ al = some q) ∨
      e = BEEvent.sleep 2 ∨ e ∈ failEvents o := by
  intro outs
  induction outs with
  | nil =>
    intro e he
    right; right
    simpa [modifyLoop] using he
  | cons oc rest ih =>
    intro e he
    by_cases hc : o.contract_id = ""
    · simp [modifyLoop, hc] at he
    · cases al with
      | none => simp [modifyLoop, hc] at he
      | some p =>
        cases oc with
        | ok =>
          simp [modifyLoop, hc] at he
          exact Or.inl ⟨p, he, rfl⟩
        | fail em =>
          by_cases ht : is_terminal_error (em.getD "Unknown error") = true
          · simp [modifyLoop, hc, ht] at he
            rcases he with he | he
            · exact Or.inl ⟨p, he, rfl⟩
            · exact Or.inr (Or.inr he)
          · cases hrest : rest.isEmpty with
            | true =>
              simp [modifyLoop, hc, ht, hrest] at he
              rcases he with he | he
              · exact Or.inl ⟨p, he, rfl⟩
              · exact Or.inr (Or.inr he)
            | false =>
              simp [modifyLoop, hc, ht, hrest] at he
              rcases he with he | he | he
              · exact Or.inl ⟨p, he, rfl⟩
              · exact Or.inr (Or.inl he)
              · exact ih e he
        | exn msg =>
          by_cases ht : is_terminal_error msg = true
          · simp [modifyLoop, hc, ht] at he
            rcases he with he | he
            · exact Or.inl ⟨p, he, rfl⟩
            · exact Or.inr (Or.inr he)
          · cases hrest : rest.isEmpty with
            | true =>
              simp [modifyLoop, hc, ht, hrest] at he
              rcases he with he | he
              · exact Or.inl ⟨p, he, rfl⟩
              · exact Or.inr (Or.inr he)
            | false =>
              simp [modifyLoop, hc, ht, hrest] at he
              rcases he with he | he | he
              · exact Or.inl ⟨p, he, rfl⟩
              · exact Or.inr (Or.inl he)
              · exact ih e he

theorem modifyLoop_sleep_two (o : StopLossOrder) (al : Option ℚ)
    (outs : List AttemptOutcome) (s : ℕ)
    (hs : BEEvent.sleep s ∈ (modifyLoop o al outs).2) : s = 2 := by
  rcases modifyLoop_events_shape o al outs _ hs with ⟨q, hq, _⟩ | h2 | h3
  · simp at hq
  · simpa using h2
  · exact absurd h3 (failEvents_no_sleep o s)

theorem modifyLoop_modify_mem (o : StopLossOrder) (al : Option ℚ)
    (outs : List AttemptOutcome) (a i : ℤ) (q : ℚ)
    (h : BEEvent.modifyCall a i q ∈ (modifyLoop o al outs).2) :
    a = o.account_id ∧ i = o.order_id ∧ al = some q := by
  rcases modifyLoop_events_shape o al outs _ h with ⟨q', hq, hal⟩ | h2 | h3
  · simp only [BEEvent.modifyCall.injEq] at hq
    exact ⟨hq.1, hq.2.1, hq.2.2 ▸ hal⟩
  · simp at h2
  · exact absurd h3 (failEvents_no_modify o a i q)

theorem modifyLoop_false_cleanup (o : StopLossOrder) (p : ℚ)
    (hsym : o.symbol ≠ "") (hc : o.contract_id ≠ "") :
    ∀ outs, (modifyLoop o (some p) outs).1 = false →
      BEEvent.blacklistAdd o.order_id ∈ (modifyLoop o (some p) outs).2 ∧
      BEEvent.removeMonitoring o.order_id ∈ (modifyLoop o (some p) outs).2 ∧
      BEEvent.releaseStream o.symbol o.order_id ∈
        (modifyLoop o (some p) outs).2 := by
  intro outs
  induction outs with
  | nil =>
    intro _
    simpa [modifyLoop] using failEvents_mem o hsym
  | cons oc rest ih =>
    intro hf
    have hmem := failEvents_mem o hsym
    cases oc with
    | ok => simp [modifyLoop, hc] at hf
    | fail em =>
      by_cases ht : is_terminal_error (em.getD "Unknown error") = true
      · have hred : modifyLoop o (some p) (AttemptOutcome.fail em :: rest) =
            (false, BEEvent.modifyCall o.account_id o.order_id p ::
              failEvents o) := by
          simp [modifyLoop, hc, ht]
        rw [hred]
        exact ⟨List.mem_cons_of_mem _ hmem.1, List.mem_cons_of_mem _ hmem.2.1,
          List.mem_cons_of_mem _ hmem.2.2⟩
      · cases hrest : rest.isEmpty with
        | true =>
          have hred : modifyLoop o (some p) (AttemptOutcome.fail em :: rest) =
              (false, BEEvent.modifyCall o.account_id o.order_id p ::
                failEvents o) := by
            simp [modifyLoop, hc, ht, hrest]
          rw [hred]
          exact ⟨List.mem_cons_of_mem _ hmem.1,
            List.mem_cons_of_mem _ hmem.2.1, List.mem_cons_of_mem _ hmem.2.2⟩
        | false =>
          have hred : modifyLoop o (some p) (AttemptOutcome.fail em :: rest) =
              ((modifyLoop o (some p) rest).1,
               BEEvent.modifyCall o.account_id o.order_id p ::
                 BEEvent.sleep 2 :: (modifyLoop o (some p) rest).2) := by
            simp [modifyLoop, hc, ht, hrest]
          rw [hred] at hf ⊢
          have hrec := ih hf
          exact ⟨List.mem_cons_of_mem _ (List.mem_cons_of_mem _ hrec.1),
            List.mem_cons_of_mem _ (List.mem_cons_of_mem _ hrec.2.1),
            List.mem_cons_of_mem _ (List.mem_cons_of_mem _ hrec.2.2)⟩
    | exn msg =>
      by_cases ht : is_terminal_error msg = true
      · have hred : modifyLoop o (some p) (AttemptOutcome.exn msg :: rest) =
            (false, BEEvent.modifyCall o.account_id o.order_id p ::
              failEvents o) := by
          simp [modifyLoop, hc, ht]
        rw [hred]
        exact ⟨List.mem_cons_of_mem _ hmem.1, List.mem_cons_of_mem _ hmem.2.1,
          List.mem_cons_of_mem _ hmem.2.2⟩
      · cases hrest : rest.isEmpty with
        | true =>
          have hred : modifyLoop o (some p) (AttemptOutcome.exn msg :: rest) =
              (false, BEEvent.modifyCall o.account_id o.order_id p ::
                failEvents o) := by
            simp [modifyLoop, hc, ht, hrest]
          rw [hred]
          exact ⟨List.mem_cons_of_mem _ hmem.1,
            List.mem_cons_of_mem _ hmem.2.1, List.mem_cons_of_mem _ hmem.2.2⟩
        | false =>
          have hred : modifyLoop o (some p) (AttemptOutcome.exn msg :: rest) =
              ((modifyLoop o (some p) rest).1,
               BEEvent.modifyCall o.account_id o.order_id p ::
                 BEEvent.sleep 2 :: (modifyLoop o (some p) rest).2) := by
            simp [modifyLoop, hc, ht, hrest]
          rw [hred] at hf ⊢
          have hrec := ih hf
          exact ⟨List.mem_cons_of_mem _ (List.mem_cons_of_mem _ hrec.1),
            List.mem_cons_of_mem _ (List.mem_cons_of_mem _ hrec.2.1),
            List.mem_cons_of_mem _ (List.mem_cons_of_mem _ hrec.2.2)⟩

theorem modifyLoop_first_terminal (o : StopLossOrder) (p : ℚ)
    (hc : o.contract_id ≠ "") :
    ∀ (pre : List AttemptOutcome) (t : AttemptOutcome)
      (suf : List AttemptOutcome),
      (∀ x ∈ pre, outcomeNonTerminalFail x = true) →
      outcomeTerminal t = true →
      (modifyLoop o (some p) (pre ++ t :: suf)).1 = false ∧
      (modifyLoop o (some p) (pre ++ t :: suf)).2.countP BEEvent.isModify =
        pre.length + 1 := by
  intro pre
  induction pre with
  | nil =>
    intro t suf _ hterm
    cases t with
    | ok => simp [outcomeTerminal] at hterm
    | fail em =>
      have ht : is_terminal_error (em.getD "Unknown error") = true := by
        simpa [outcomeTerminal] using hterm
      simp [modifyLoop, hc, ht, List.countP_cons, BEEvent.isModify,
        failEvents_countModify]
    | exn m =>
      have ht : is_terminal_error m = true := by
        simpa [outcomeTerminal] using hterm
      simp [modifyLoop, hc, ht, List.countP_cons, BEEvent.isModify,
        failEvents_countModify]
  | cons x pre' ih =>
    intro t suf hpre hterm
    have hx : outcomeNonTerminalFail x = true :=
      hpre x (List.mem_cons_self x pre')
    have hpre' : ∀ y ∈ pre', outcomeNonTerminalFail y = true :=
      fun y hy => hpre y (List.mem_cons_of_mem x hy)
    have hrest : (pre' ++ t :: suf).isEmpty = false := by simp
    have ihh := ih t suf hpre' hterm
    cases x with
    | ok => simp [outcomeNonTerminalFail] at hx
    | fail em =>
      have ht : is_terminal_error (em.getD "Unknown error") = false := by
        simpa [outcomeNonTerminalFail] using hx
      simp only [List.cons_append]
      simp [modifyLoop, hc, ht, hrest, List.countP_cons, BEEvent.isModify,
        ihh.1, ihh.2]
    | exn m =>
      have ht : is_terminal_error m = false := by
        simpa [outcomeNonTerminalFail] using hx
      simp only [List.cons_append]
      simp [modifyLoop, hc, ht, hrest, List.countP_cons, BEEvent.isModify,
        ihh.1, ihh.2]

theorem modifyLoop_all_nonterminal (o : StopLossOrder) (p : ℚ)
    (hc : o.contract_id ≠ "") :
    ∀ outs, (∀ x ∈ outs, outcomeNonTerminalFail x = true) →
      (modifyLoop o (some p) outs).1 = false ∧
      (modifyLoop o (some p) outs).2.countP BEEvent.isModify =
        outs.length := by
  intro outs
  induction outs with
  | nil =>
    intro _
    simp [modifyLoop, failEvents_countModify]
  | cons x rest ih =>
    intro hall
    have hx : outcomeNonTerminalFail x = true :=
      hall x (List.mem_cons_self x rest)
    have hrestAll : ∀ y ∈ rest, outcomeNonTerminalFail y = true :=
      fun y hy => hall y (List.mem_cons_of_mem x hy)
    cases x with
    | ok => simp [outcomeNonTerminalFail] at hx
    | fail em =>
      have ht : is_terminal_error (em.getD "Unknown error") = false := by
        simpa [outcomeNonTerminalFail] using hx
      cases hrest : rest.isEmpty with
      | true =>
        have hnil : rest = [] := by simpa using hrest
        subst hnil
        simp [modifyLoop, hc, ht, List.countP_cons, BEEvent.isModify,
          failEvents_countModify]
      | false =>
        have ihh := ih hrestAll
        simp [modifyLoop, hc, ht, hrest, List.countP_cons, BEEvent.isModify,
          ihh.1, ihh.2]
    | exn m =>
      have ht : is_terminal_error m = false := by
        simpa [outcomeNonTerminalFail] using hx
      cases hrest : rest.isEmpty with
      | true =>
        have hnil : rest = [] := by simpa using hrest
        subst hnil
        simp [modifyLoop, hc, ht, List.countP_cons, BEEvent.isModify,
          failEvents_countModify]
      | false =>
        have ihh := ih hrestAll
        simp [modifyLoop, hc, ht, hrest, List.countP_cons, BEEvent.isModify,
          ihh.1, ihh.2]

/-- C2: the break-even modification makes at most 5 broker modify calls with
a fixed 2-second delay between consecutive attempts; an outcome matching a
terminal pattern aborts the retries at its first occurrence; and on any
failure (terminal or exhaustion of all 5 attempts) the order is removed from
monitoring, its stream subscription released, and its id blacklisted — in
particular a 6th attempt never happens. -/
theorem c2_retry_bounded_terminal_aborts_blacklisted
    (o : StopLossOrder) (p : ℚ) (outs : List AttemptOutcome)
    (hsym : o.symbol ≠ "") (hcid : o.contract_id ≠ "")
    (hlen : outs.length = 5) :
    (modify_stop_to_break_even o (some p) outs).2.countP BEEvent.isModify
      ≤ 5 ∧
    (∀ s, BEEvent.sleep s ∈ (modify_stop_to_break_even o (some p) outs).2 →
      s = 2) ∧
    ((modify_stop_to_break_even o (some p) outs).1 = false →
      BEEvent.blacklistAdd o.order_id ∈
        (modify_stop_to_break_even o (some p) outs).2 ∧
      BEEvent.removeMonitoring o.order_id ∈
        (modify_stop_to_break_even o (some p) outs).2 ∧
      BEEvent.releaseStream o.symbol o.order_id ∈
        (modify_stop_to_break_even o (some p) outs).2) ∧
    (∀ pre t suf, outs = pre ++ t :: suf →
      (∀ x ∈ pre, outcomeNonTerminalFail x = true) →
      outcomeTerminal t = true →
      (modify_stop_to_break_even o (some p) outs).1 = false ∧
      (modify_stop_to_break_even o (some p) outs).2.countP BEEvent.isModify
        = pre.length + 1) ∧
    ((∀ x ∈ outs, outcomeNonTerminalFail x = true) →
      (modify_stop_to_break_even o (some p) outs).1 = false ∧
      (modify_stop_to_break_even o (some p) outs).2.countP BEEvent.isModify
        = 5) := by
  refine ⟨?_, ?_, ?_, ?_, ?_⟩
  · have h := modifyLoop_countModify_le o (some p) outs
    rw [hlen] at h
    exact h
  · exact fun s hs => modifyLoop_sleep_two o (some p) outs s hs
  · exact fun hf => modifyLoop_false_cleanup o p hsym hcid outs hf
  · intro pre t suf heq hpre hterm
    subst heq
    exact modifyLoop_first_terminal o p hcid pre t suf hpre hterm
  · intro hall
    have h := modifyLoop_all_nonterminal o p hcid outs hall
    rw [hlen] at h
    exact h

/-- C2 witness: five transient failures exhaust the retries, make exactly 5
modify calls, and blacklist the order. -/
theorem c2_witness :
    (modify_stop_to_break_even wOrder (some 20000) wOuts).1 = false ∧
    (modify_stop_to_break_even wOrder (some 20000) wOuts).2.countP
      BEEvent.isModify = 5 ∧
    BEEvent.blacklistAdd 101 ∈
      (modify_stop_to_break_even wOrder (some 20000) wOuts).2 := by
  have h := c2_retry_bounded_terminal_aborts_blacklisted wOrder 20000 wOuts
    (by decide) (by decide) (by decide)
  have h5 := h.2.2.2.2 (by decide)
  exact ⟨h5.1, h5.2, (h.2.2.1 h5.1).1⟩

theorem roundHalfEven_sub_abs_le (q : ℚ) :
    |(roundHalfEven q : ℚ) - q| ≤ 1/2 := by
  have h0 : (0 : ℚ) ≤ q - ⌊q⌋ := sub_nonneg.2 (Int.floor_le q)
  have h1 : q - ⌊q⌋ < 1 := by
    have := Int.lt_floor_add_one q
    linarith
  simp only [roundHalfEven]
  split_ifs with hlt hgt heven
  · rw [abs_le]
    constructor <;> linarith
  · rw [abs_le]
    push_cast
    constructor <;> linarith
  · rw [abs_le]
    constructor <;> linarith
  · rw [abs_le]
    push_cast
    constructor <;> linarith

theorem roundHalfEven_intCast (k : ℤ) : roundHalfEven (k : ℚ) = k := by
  simp only [roundHalfEven, Int.floor_intCast, sub_self]
  norm_num

theorem roundToDecimals_of_den_one (n : ℕ) (q : ℚ)
    (h : (q * 10 ^ n).den = 1) : roundToDecimals n q = q := by
  have hint : ((q * 10 ^ n).num : ℚ) = q * 10 ^ n := (Rat.den_eq_one_iff _).1 h
  unfold roundToDecimals
  rw [← hint, roundHalfEven_intCast, hint]
  have hne : (10 : ℚ) ^ n ≠ 0 := pow_ne_zero n (by norm_num)
  field_simp

theorem align_eq_of_den_one (c : Contract) (price : ℚ)
    (hts : 0 < c.tickSize)
    (hden : (c.tickSize * 10 ^ (c.decimalPlaces.getD 2)).den = 1) :
    align_price_to_tick_size (some c) price =
      some ((roundHalfEven (price / c.tickSize) : ℚ) * c.tickSize) := by
  simp only [align_price_to_tick_size]
  rw [if_neg (not_le.2 hts)]
  congr 1
  apply roundToDecimals_of_den_one
  have hmul : (roundHalfEven (price / c.tickSize) : ℚ) * c.tickSize *
      10 ^ (c.decimalPlaces.getD 2) =
      (roundHalfEven (price / c.tickSize) : ℚ) *
        (c.tickSize * 10 ^ (c.decimalPlaces.getD 2)) := by ring
  rw [hmul]
  have hr : ((c.tickSize * 10 ^ (c.decimalPlaces.getD 2)).num : ℚ) =
      c.tickSize * 10 ^ (c.decimalPlaces.getD 2) :=
    (Rat.den_eq_one_iff _).1 hden
  rw [← hr, ← Int.cast_mul]
  exact Rat.den_intCast _

theorem nearest_tick_multiple (ts : ℚ) (hts : 0 < ts) (e : ℚ) (j : ℤ) :
    |(roundHalfEven (e / ts) : ℚ) * ts - e| ≤ |(j : ℚ) * ts - e| := by
  have hxts : e / ts * ts = e := div_mul_cancel₀ e (ne_of_gt hts)
  have hkx : |(roundHalfEven (e / ts) : ℚ) - e / ts| ≤ 1/2 :=
    roundHalfEven_sub_abs_le (e / ts)
  have h1 : (roundHalfEven (e / ts) : ℚ) * ts - e =
      ((roundHalfEven (e / ts) : ℚ) - e / ts) * ts := by
    rw [sub_mul, hxts]
  have h2 : (j : ℚ) * ts - e = ((j : ℚ) - e / ts) * ts := by
    rw [sub_mul, hxts]
  rw [h1, h2, abs_mul, abs_mul, abs_of_pos hts]
  apply mul_le_mul_of_nonneg_right _ hts.le
  by_cases hjk : j = roundHalfEven (e / ts)
  · rw [hjk]
  · have hjk1 : (1 : ℚ) ≤ |(j : ℚ) - (roundHalfEven (e / ts) : ℚ)| := by
      have hz : (1 : ℤ) ≤ |j - roundHalfEven (e / ts)| :=
        Int.one_le_abs (sub_ne_zero.2 hjk)
      exact_mod_cast hz
    have htri : |(j : ℚ) - (roundHalfEven (e / ts) : ℚ)| ≤
        |(j : ℚ) - e / ts| + |(roundHalfEven (e / ts) : ℚ) - e / ts| := by
      have h := abs_sub_le ((j : ℚ)) (e / ts) ((roundHalfEven (e / ts) : ℚ))
      rwa [abs_sub_comm (e / ts)] at h
    linarith

theorem modifyLoop_head_modify (o : StopLossOrder) (p : ℚ)
    (hc : o.contract_id ≠ "") (oc : AttemptOutcome)
    (rest : List AttemptOutcome) :
    BEEvent.modifyCall o.account_id o.order_id p ∈
      (modifyLoop o (some p) (oc :: rest)).2 := by
  cases oc with
  | ok => simp [modifyLoop, hc]
  | fail em =>
    by_cases ht : is_terminal_error (em.getD "Unknown error") = true
    · simp [modifyLoop, hc, ht]
    · cases hrest : rest.isEmpty <;> simp [modifyLoop, hc, ht, hrest]
  | exn msg =>
    by_cases ht : is_terminal_error msg = true
    · simp [modifyLoop, hc, ht]
    · cases hrest : rest.isEmpty <;> simp [modifyLoop, hc, ht, hrest]

theorem triggerRemoveEvents_no_modify (o : StopLossOrder) (a i : ℤ)
    (q : ℚ) : BEEvent.modifyCall a i q ∉ triggerRemoveEvents o := by
  unfold triggerRemoveEvents
  split <;> simp

theorem trigger_events_when_triggered (o : StopLossOrder) (env : TriggerEnv)
    (sp ep off p A : ℚ)
    (hen : o.enable_break_even_stop = some true)
    (hnact : o.break_even_activated.getD false = false)
    (hprice : env.price = some p)
    (hsp : o.stop_price = some sp) (hep : o.entry_price = some ep)
    (hoff : o.break_even_activation_offset = some off)
    (hal : align_price_to_tick_size env.contract ep = some A)
    (hoffcode : off ≤ calculate_profit p ep
      (determine_position_direction sp ep)) :
    (check_break_even_trigger o env).2 =
      (modify_stop_to_break_even o (some A) env.outcomes).2 ++
        (if (modify_stop_to_break_even o (some A) env.outcomes).1 then
          [BEEvent.activationUpdate o.order_id
            (activationNewStop o env.contract ep)] ++ triggerRemoveEvents o
        else triggerRemoveEvents o) := by
  simp only [check_break_even_trigger, hen, hnact, hprice, hsp, hep, hoff,
    Option.getD_some, not_true, Bool.false_eq_true, if_false, ge_iff_le,
    if_pos hoffcode, hal]
  cases hr : (modify_stop_to_break_even o (some A) env.outcomes).1 <;>
    simp [hr]

theorem trigger_no_events_below_offset (o : StopLossOrder) (env : TriggerEnv)
    (sp ep off p : ℚ)
    (hen : o.enable_break_even_stop = some true)
    (hnact : o.break_even_activated.getD false = false)
    (hprice : env.price = some p)
    (hsp : o.stop_price = some sp) (hep : o.entry_price = some ep)
    (hoff : o.break_even_activation_offset = some off)
    (hoffcode : ¬ (off ≤ calculate_profit p ep
      (determine_position_direction sp ep))) :
    check_break_even_trigger o env = (false, []) := by
  simp only [check_break_even_trigger, hen, hnact, hprice, hsp, hep, hoff,
    Option.getD_some, not_true, Bool.false_eq_true, if_false, ge_iff_le,
    if_neg hoffcode]

/-- C7: for a monitored break-even order with a known current price, position
direction is long iff the stop sits below entry, profit is (price − entry)
for long and (entry − price) for short, a broker stop modification is
attempted iff that profit reaches the activation offset, and every modify
call sends the entry price rounded to the nearest multiple of the contract's
tick size. -/
theorem c7_trigger_profit_and_tick_alignment
    (o : StopLossOrder) (env : TriggerEnv) (c : Contract) (sp ep off p : ℚ)
    (hen : o.enable_break_even_stop = some true)
    (hnact : o.break_even_activated.getD false = false)
    (hprice : env.price = some p)
    (hsp : o.stop_price = some sp) (hep : o.entry_price = some ep)
    (hoff : o.break_even_activation_offset = some off)
    (hc : env.contract = some c) (hts : 0 < c.tickSize)
    (hden : (c.tickSize * 10 ^ (c.decimalPlaces.getD 2)).den = 1)
    (hcid : o.contract_id ≠ "") (houts : env.outcomes ≠ []) :
    ((∃ a i q, BEEvent.modifyCall a i q ∈
        (check_break_even_trigger o env).2) ↔
      (if sp < ep then p - ep else ep - p) ≥ off) ∧
    (∀ a i q, BEEvent.modifyCall a i q ∈ (check_break_even_trigger o env).2 →
      q = (roundHalfEven (ep / c.tickSize) : ℚ) * c.tickSize ∧
      (∃ k : ℤ, q = (k : ℚ) * c.tickSize) ∧
      (∀ j : ℤ, |q - ep| ≤ |(j : ℚ) * c.tickSize - ep|)) := by
  have hal : align_price_to_tick_size env.contract ep =
      some ((roundHalfEven (ep / c.tickSize) : ℚ) * c.tickSize) := by
    rw [hc]
    exact align_eq_of_den_one c ep hts hden
  have hprofeq : calculate_profit p ep (determine_position_direction sp ep) =
      (if sp < ep then p - ep else ep - p) := by
    by_cases h : sp < ep <;>
      simp [calculate_profit, determine_position_direction, h]
  constructor
  · constructor
    · rintro ⟨a, i, q, hq⟩
      by_contra hbelow
      have hoffcode : ¬ (off ≤ calculate_profit p ep
          (determine_position_direction sp ep)) := by
        rw [hprofeq]
        exact hbelow
      rw [trigger_no_events_below_offset o env sp ep off p hen hnact hprice
        hsp hep hoff hoffcode] at hq
      simp at hq
    · intro habove
      have hoffcode : off ≤ calculate_profit p ep
          (determine_position_direction sp ep) := by
        rw [hprofeq]
        exact habove
      obtain ⟨oc, rest, hout⟩ := List.exists_cons_of_ne_nil houts
      refine ⟨o.account_id, o.order_id,
        (roundHalfEven (ep / c.tickSize) : ℚ) * c.tickSize, ?_⟩
      rw [trigger_events_when_triggered o env sp ep off p
        ((roundHalfEven (ep / c.tickSize) : ℚ) * c.tickSize) hen hnact hprice
        hsp hep hoff hal hoffcode]
      apply List.mem_append_left
      rw [hout]
      exact modifyLoop_head_modify o _ hcid oc rest
  · intro a i q hq
    by_cases hoffcode : off ≤ calculate_profit p ep
        (determine_position_direction sp ep)
    · rw [trigger_events_when_triggered o env sp ep off p
        ((roundHalfEven (ep / c.tickSize) : ℚ) * c.tickSize) hen hnact hprice
        hsp hep hoff hal hoffcode] at hq
      rcases List.mem_append.1 hq with hq | hq
      · have h3 := modifyLoop_modify_mem o _ env.outcomes a i q hq
        have hqA : q = (roundHalfEven (ep / c.tickSize) : ℚ) * c.tickSize :=
          (Option.some_inj.1 h3.2.2).symm
        refine ⟨hqA, ⟨roundHalfEven (ep / c.tickSize), hqA⟩, ?_⟩
        intro j
        rw [hqA]
        exact nearest_tick_multiple c.tickSize hts ep j
      · cases hrb : (modify_stop_to_break_even o
            (some ((roundHalfEven (ep / c.tickSize) : ℚ) * c.tickSize))
            env.outcomes).1 with
        | true =>
          rw [hrb] at hq
          simp only [if_true] at hq
          rcases List.mem_append.1 hq with hq | hq
          · simp at hq
          · exact absurd hq (triggerRemoveEvents_no_modify o a i q)
        | false =>
          rw [hrb] at hq
          simp only [Bool.false_eq_true, if_false] at hq
          exact absurd hq (triggerRemoveEvents_no_modify o a i q)
    · rw [trigger_no_events_below_offset o env sp ep off p hen hnact hprice
        hsp hep hoff hoffcode] at hq
      simp at hq

/-- C7 witness: NQ-style contract with quarter-point ticks, entry 20000, stop
19980 (long), price 20015, offset 10: a modify is attempted and sends
exactly 20000 (a tick multiple nearest to entry). -/
theorem c7_witness :
    ((∃ a i q, BEEvent.modifyCall a i q ∈
        (check_break_even_trigger wOrder wTrigEnv).2) ↔
      (if (19980 : ℚ) < 20000 then (20015 : ℚ) - 20000 else
        (20000 : ℚ) - 20015) ≥ 10) ∧
    (∀ a i q, BEEvent.modifyCall a i q ∈
        (check_break_even_trigger wOrder wTrigEnv).2 →
      q = (roundHalfEven ((20000 : ℚ) / wContract.tickSize) : ℚ) *
        wContract.tickSize ∧
      (∃ k : ℤ, q = (k : ℚ) * wContract.tickSize) ∧
      (∀ j : ℤ, |q - 20000| ≤ |(j : ℚ) * wContract.tickSize - 20000|)) :=
  c7_trigger_profit_and_tick_alignment wOrder wTrigEnv wContract 19980 20000
    10 20015 rfl rfl rfl rfl rfl rfl rfl (by norm_num [wContract])
    (by norm_num [wContract]) (by decide) (by decide)

theorem trigger_modify_orderId (o : StopLossOrder) (env : TriggerEnv)
    (a i : ℤ) (q : ℚ)
    (h : BEEvent.modifyCall a i q ∈ (check_break_even_trigger o env).2) :
    a = o.account_id ∧ i = o.order_id := by
  simp only [check_break_even_trigger] at h
  repeat' split at h
  all_goals try simp at h
  all_goals
    rcases h with h2 | h2
    case _ =>
      have h3 := modifyLoop_modify_mem o _ env.outcomes a i q h2
      exact ⟨h3.1, h3.2.1⟩
    case _ =>
      exact absurd h2 (triggerRemoveEvents_no_modify o a i q)

theorem applyEvents_mem_failed (oid : ℤ) :
    ∀ (evs : List BEEvent) (st : Finset ℤ × List (ℤ × String)),
      oid ∈ st.1 → oid ∈ (applyEvents st evs).1 := by
  intro evs
  induction evs with
  | nil =>
    intro st h
    exact h
  | cons e rest ih =>
    intro st h
    cases e with
    | blacklistAdd i =>
      exact ih (insert i st.1, st.2) (Finset.mem_insert_of_mem h)
    | removeMonitoring i => exact ih (st.1, removeTracked i st.2) h
    | modifyCall a b c => exact ih st h
    | sleep s => exact ih st h
    | releaseStream s j => exact ih st h
    | requestStream s j => exact ih st h
    | activationUpdate j ns => exact ih st h

theorem tickEnsureStep_no_modify (env : TickEnv)
    (st : List (ℤ × String) × List BEEvent) (o : StopLossOrder)
    (h : ∀ a i q, BEEvent.modifyCall a i q ∉ st.2) :
    ∀ a i q, BEEvent.modifyCall a i q ∉ (tickEnsureStep env st o).2 := by
  intro a i q
  unfold tickEnsureStep add_break_even_order
  repeat' split
  all_goals
    first
      | exact h a i q
      | (intro hin
         rcases List.mem_append.1 hin with h2 | h2
         · exact h a i q h2
         · simp at h2)

theorem ensure_fold_no_modify (env : TickEnv) :
    ∀ (l : List StopLossOrder) (st : List (ℤ × String) × List BEEvent),
      (∀ a i q, BEEvent.modifyCall a i q ∉ st.2) →
      ∀ a i q, BEEvent.modifyCall a i q ∉
        (l.foldl (tickEnsureStep env) st).2 := by
  intro l
  induction l with
  | nil =>
    intro st h
    exact h
  | cons o rest ih =>
    intro st h
    simpa [List.foldl_cons] using
      ih (tickEnsureStep env st o) (tickEnsureStep_no_modify env st o h)

theorem tickCheckStep_preserves (env : TickEnv) (oid : ℤ)
    (st : List (ℤ × String) × Finset ℤ × List BEEvent) (o : StopLossOrder)
    (hnz : oid ≠ 0) (hmem : oid ∈ st.2.1)
    (hno : ∀ a q, BEEvent.modifyCall a oid q ∉ st.2.2) :
    oid ∈ (tickCheckStep env st o).2.1 ∧
    (∀ a q, BEEvent.modifyCall a oid q ∉ (tickCheckStep env st o).2.2) := by
  unfold tickCheckStep
  split
  · exact ⟨hmem, hno⟩
  · next hguard1 =>
    split
    · exact ⟨hmem, hno⟩
    · split
      · split
        · refine ⟨hmem, fun a q hin => ?_⟩
          rcases List.mem_append.1 hin with h2 | h2
          · exact hno a q h2
          · simp at h2
        · exact ⟨hmem, hno⟩
      · refine ⟨applyEvents_mem_failed oid _ _ hmem, fun a q hin => ?_⟩
        rcases List.mem_append.1 hin with h2 | h2
        · exact hno a q h2
        · have h3 := trigger_modify_orderId o (env.trigger o.order_id)
            a oid q h2
          exact absurd h3.2.symm (fun he =>
            hguard1 ⟨by rw [he]; exact hnz, by rw [he]; exact hmem⟩)

theorem check_fold_preserves (env : TickEnv) (oid : ℤ) (hnz : oid ≠ 0) :
    ∀ (l : List StopLossOrder)
      (st : List (ℤ × String) × Finset ℤ × List BEEvent),
      oid ∈ st.2.1 → (∀ a q, BEEvent.modifyCall a oid q ∉ st.2.2) →
      oid ∈ (l.foldl (tickCheckStep env) st).2.1 ∧
      (∀ a q, BEEvent.modifyCall a oid q ∉
        (l.foldl (tickCheckStep env) st).2.2) := by
  intro l
  induction l with
  | nil =>
    intro st h1 h2
    exact ⟨h1, h2⟩
  | cons o rest ih =>
    intro st h1 h2
    have hstep := tickCheckStep_preserves env oid st o hnz h1 h2
    simpa [List.foldl_cons] using ih (tickCheckStep env st o) hstep.1 hstep.2

/-- C3: while an order id is in the failed-orders blacklist, a poll tick of
the break-even monitoring loop issues no broker modify call for it — even if
the order is present as ACTIVE with break-even enabled in the registry — the
id stays blacklisted after the tick, and the explicit admin clear empties the
blacklist and returns the number of removed entries.  The id is required to
be truthy (≠ 0): both skip guards in the loop are `if order_id and ...`, so
a falsy order id would bypass them. -/
theorem c3_blacklist_permanence
    (orders : List StopLossOrder) (st : MonitorState) (env : TickEnv)
    (oid : ℤ) (hnz : oid ≠ 0) (hmem : oid ∈ st.failedOrders) :
    (∀ a q, BEEvent.modifyCall a oid q ∉ (monitor_tick orders st env).2) ∧
    oid ∈ (monitor_tick orders st env).1.failedOrders ∧
    clear_failed_orders_blacklist st.failedOrders =
      (st.failedOrders.card, (∅ : Finset ℤ)) := by
  have hens : ∀ a i q, BEEvent.modifyCall a i q ∉
      ((eligibleOrders orders).foldl (tickEnsureStep env)
        (st.tracked, [])).2 :=
    ensure_fold_no_modify env (eligibleOrders orders) (st.tracked, [])
      (by intro a i q hin; simp at hin)
  cases hemp : (eligibleOrders orders).isEmpty with
  | true =>
    refine ⟨?_, ?_, rfl⟩
    · intro a q hin
      simp only [monitor_tick, hemp, if_true] at hin
      rcases List.mem_append.1 hin with h2 | h2
      · exact hens a oid q h2
      · rcases List.mem_flatMap.1 h2 with ⟨pr, hpr1, hpr⟩
        simp at hpr
    · simp only [monitor_tick, hemp, if_true]
      exact hmem
  | false =>
    have hchk := check_fold_preserves env oid hnz (eligibleOrders orders)
      ((((eligibleOrders orders).foldl (tickEnsureStep env)
        (st.tracked, []))).1, st.failedOrders, []) hmem
      (by intro a q hin; simp at hin)
    refine ⟨?_, ?_, rfl⟩
    · intro a q hin
      simp only [monitor_tick, hemp, Bool.false_eq_true, if_false] at hin
      rcases List.mem_append.1 hin with h2 | h2
      · exact hens a oid q h2
      · exact hchk.2 a q h2
    · simp only [monitor_tick, hemp, Bool.false_eq_true, if_false]
      exact hchk.1

/-- C3 witness: order 101 is blacklisted, still ACTIVE with break-even
enabled in the registry, and the tick issues no modify for it. -/
theorem c3_witness :
    (∀ a q, BEEvent.modifyCall a 101 q ∉
      (monitor_tick [wOrder] wTickSt wTickEnv).2) ∧
    (101 : ℤ) ∈ (monitor_tick [wOrder] wTickSt wTickEnv).1.failedOrders ∧
    clear_failed_orders_blacklist wTickSt.failedOrders =
      (wTickSt.failedOrders.card, (∅ : Finset ℤ)) := by
  have h := c3_blacklist_permanence [wOrder] wTickSt wTickEnv 101 (by decide)
    (by decide)
  exact ⟨h.1, h.2.1, h.2.2⟩
